import Mathlib

/-!
Shallow embedding of `osm_building_fetcher.py` (toucans-czml-tools).

The core pipeline is modelled over exact rationals standing for Python
floats (all claims here are structural: which tag wins, which constant is
used, list shapes), Python dicts are modelled as insertion-ordered
association lists with in-place overwrite on key collision, and the
height regex `([-+]?[0-9]*\.?[0-9]+)` is modelled by an executable
leftmost-match search with the same greedy/backtracking behaviour.
-/

namespace OsmFetcher

/-- A coordinate as built at line 215: `{"lat": ..., "lng": ...}`. -/
structure Coordinate where
  lat : ℚ
  lng : ℚ
  deriving DecidableEq, Repr

/-- An Overpass payload element: `node`, building-relevant `way`, or anything
else (ignored by both indexing branches). -/
inductive Element where
  | node (id : Int) (lat lng : ℚ)
  | way (id : Int) (nodeRefs : List Int) (tags : List (String × String))
  | other
  deriving DecidableEq, Repr

/-- The node-reference list of a way, defaulting to empty like `way.get` with a default. -/
def wayNodes : Element → List Int
  | .way _ ns _ => ns
  | _ => []

/-- The tag mapping of a way, defaulting to empty like `way.get` with a default. -/
def wayTags : Element → List (String × String)
  | .way _ _ ts => ts
  | _ => []

/-- Python `dict.get` on a tag mapping (keys are unique in a dict; the model
takes the first binding). -/
def getTag (tags : List (String × String)) (k : String) : Option String :=
  (tags.find? (fun p => p.1 == k)).map Prod.snd

/-- Python dict assignment `d[k] = v`: overwrite in place when the key is
present, append otherwise (insertion order preserved). -/
def dinsert (d : List (Int × α)) (k : Int) (v : α) : List (Int × α) :=
  if d.any (fun p => p.1 == k) then
    d.map (fun p => if p.1 == k then (k, v) else p)
  else
    d ++ [(k, v)]

/-- Python `dict.get(k)`. -/
def dget (d : List (Int × α)) (k : Int) : Option α :=
  (d.find? (fun p => p.1 == k)).map Prod.snd

/-- Python truthiness of an optional string (`None` and `""` are falsy). -/
def truthy : Option String → Bool
  | none => false
  | some s => s ≠ ""

/-- Python `a or b` on optional tag values (line 239). -/
def pyOr (a b : Option String) : Option String :=
  if truthy a then a else b

/-- Decimal digit run value, e.g. `['1','2'] ↦ 12`. -/
def digitsVal (ds : List Char) : Nat :=
  ds.foldl (fun n c => 10 * n + (c.toNat - 48)) 0

/-- Python `float(...)` on the kind of token the height regex yields:
optional sign, digits, optional `.digits` (`none` models `ValueError`). -/
def pyFloatCore (s : List Char) : Option ℚ :=
  let d1 := s.takeWhile Char.isDigit
  match s.dropWhile Char.isDigit with
  | [] => if d1 = [] then none else some (digitsVal d1)
  | c :: r2 =>
      if c = '.' then
        let d2 := r2.takeWhile Char.isDigit
        if r2.dropWhile Char.isDigit = [] ∧ (d1 ≠ [] ∨ d2 ≠ []) then
          some ((digitsVal d1 : ℚ) + (digitsVal d2 : ℚ) / (10 : ℚ) ^ d2.length)
        else none
      else none

/-- Python `float` with an optional leading sign. -/
def pyFloat (s : List Char) : Option ℚ :=
  match s with
  | [] => none
  | c :: rest =>
      if c = '-' then (pyFloatCore rest).map Neg.neg
      else if c = '+' then pyFloatCore rest
      else pyFloatCore (c :: rest)

/-- Greedy match of the regex body `[0-9]*\.?[0-9]+` at the head of `s`
(with Python `re` backtracking: `digits.digits` when a digit follows the
dot, else the whole leading digit run when non-empty). -/
def matchBody (s : List Char) : Option (List Char) :=
  let d1 := s.takeWhile Char.isDigit
  match s.dropWhile Char.isDigit with
  | [] => if d1 ≠ [] then some d1 else none
  | c :: r2 =>
      if c = '.' then
        let d2 := r2.takeWhile Char.isDigit
        if d2 ≠ [] then some (d1 ++ '.' :: d2)
        else if d1 ≠ [] then some d1 else none
      else if d1 ≠ [] then some d1 else none

/-- Match of `[-+]?[0-9]*\.?[0-9]+` anchored at the head of `s`. A sign is
consumed only when the body matches right after it (matching the body at
the sign character itself always fails). -/
def matchAt (s : List Char) : Option (List Char) :=
  match s with
  | [] => none
  | c :: rest =>
      if c = '-' ∨ c = '+' then
        match matchBody rest with
        | some m => some (c :: m)
        | none => none
      else matchBody s

/-- Model of `re.search`: leftmost position whose anchored match succeeds. -/
def searchNum : List Char → Option (List Char)
  | [] => none
  | c :: rest =>
      match matchAt (c :: rest) with
      | some m => some m
      | none => searchNum rest

/-- Model of `_clean` inside `_normalize_height` (lines 37-46): falsy value maps to `None`;
else `re.search` for the first number token, `float` on the group. -/
def _clean (value : String) : Option ℚ :=
  if value = "" then none
  else
    match searchNum value.data with
    | none => none
    | some tok => pyFloat tok

/-- Model of `_normalize_height` (lines 34-57): parsed height wins, else parsed
levels times `3.0`, else `None`.  `raw_height or ""` maps `None` to `""`. -/
def _normalize_height (raw_height raw_levels : Option String) : Option ℚ :=
  match _clean (raw_height.getD "") with
  | some h => some h
  | none =>
      match _clean (raw_levels.getD "") with
      | some h => some (h * 3)
      | none => none

/-- The fixed address tag order `_ADDRESS_FIELDS` (lines 22-31). -/
def _ADDRESS_FIELDS : List String :=
  ["addr:housenumber", "addr:houseletter", "addr:street", "addr:suburb",
   "addr:city", "addr:state", "addr:postcode", "addr:country"]

/-- Model of `_format_address` (lines 60-66): the loop appends each truthy tag value
in field order; join with `", "` unless no part was collected. -/
def _format_address (tags : List (String × String)) : Option String :=
  let parts := _ADDRESS_FIELDS.foldl
    (fun acc k =>
      match getTag tags k with
      | some v => if v ≠ "" then acc ++ [v] else acc
      | none => acc)
    []
  if parts = [] then none else some (String.intercalate ", " parts)

/-- Model of `_ensure_closed_ring` (lines 69-74): empty stays empty; append a copy of
the first coordinate when first and last differ. -/
def _ensure_closed_ring (ns : List Coordinate) : List Coordinate :=
  match ns with
  | [] => []
  | c :: rest =>
      if (c :: rest).getLast? = some c then c :: rest
      else (c :: rest) ++ [c]

/-- The height argument of line 239:
`_normalize_height(tags.get("height") or tags.get("building:height"), tags.get("building:levels"))`. -/
def heightFor (tags : List (String × String)) : Option ℚ :=
  _normalize_height (pyOr (getTag tags "height") (getTag tags "building:height"))
    (getTag tags "building:levels")

/-- One entry of the `results` list (lines 242-247). -/
structure BuildingRecord where
  way_id : Int
  outline : List Coordinate
  height_m : Option ℚ
  address : Option String
  deriving DecidableEq, Repr

/-- Loop body of lines 224-248 for one `(way_id, way)` entry: resolve node
refs (absent ids skipped), close the ring, drop it when fewer than 4
coordinates remain, else assemble the record. -/
def processWay (nd : List (Int × Coordinate)) (wid : Int) (el : Element) :
    Option BuildingRecord :=
  let coordinates := _ensure_closed_ring ((wayNodes el).filterMap (fun i => dget nd i))
  if coordinates.length < 4 then none
  else
    some { way_id := wid, outline := coordinates,
           height_m := heightFor (wayTags el),
           address := _format_address (wayTags el) }

/-- Lines 212-215: the `nodes` dict. -/
def indexNodes (elements : List Element) : List (Int × Coordinate) :=
  elements.foldl
    (fun nd el =>
      match el with
      | .node i la ln => dinsert nd i ⟨la, ln⟩
      | _ => nd)
    []

/-- Line 216: a way enters `buildings` iff `tags.get("building")` is truthy. -/
def isBuildingWay : Element → Bool
  | .way _ _ tags => truthy (getTag tags "building")
  | _ => false

/-- Lines 212-217: the `buildings` dict. -/
def indexBuildings (elements : List Element) : List (Int × Element) :=
  elements.foldl
    (fun bd el =>
      match el with
      | .way i _ _ => if isBuildingWay el then dinsert bd i el else bd
      | _ => bd)
    []

/-- The core of `fetch_osm_buildings` after payload validation: the
`results` list built in encounter order of the `buildings` dict. -/
def fetchOsmBuildings (elements : List Element) : List BuildingRecord :=
  let nd := indexNodes elements
  (indexBuildings elements).filterMap (fun p => processWay nd p.1 p.2)

/-- The clock value of the document packet (lines 92-96). -/
structure CzmlClock where
  interval : String
  currentTime : String
  multiplier : Int
  deriving DecidableEq, Repr

/-- Document packet (lines 88-97). -/
structure DocumentPacket where
  id : String
  name : String
  version : String
  clock : CzmlClock
  deriving DecidableEq, Repr

/-- The polygon value of the building packet (lines 102-120). -/
structure CzmlPolygon where
  cartographicDegrees : List ℚ
  perPositionHeight : Bool
  extrudedHeight : ℚ
  height : ℚ
  materialRgba : List Nat
  outline : Bool
  outlineColorRgba : List Nat
  deriving DecidableEq, Repr

/-- Building packet (lines 99-121). -/
structure BuildingPacket where
  id : String
  name : String
  polygon : CzmlPolygon
  deriving DecidableEq, Repr

/-- The two-packet list returned by `_build_czml_document`. -/
structure CzmlDoc where
  document : DocumentPacket
  building : BuildingPacket
  deriving DecidableEq, Repr

/-- Model of `_build_czml_document` (lines 77-123): default the height to `10.0` when
absent, flatten `[lng, lat, 0.0]` per coordinate, fixed style constants. -/
def _build_czml_document (way_id : Int) (coordinates : List Coordinate)
    (height : Option ℚ) : CzmlDoc :=
  let h := height.getD 10
  let cartographic := coordinates.foldl (fun acc c => acc ++ [c.lng, c.lat, 0]) []
  { document :=
      { id := "document"
        name := "OSM Way " ++ toString way_id
        version := "1.0"
        clock :=
          { interval := "2020-01-01T00:00:00Z/2020-01-01T00:01:00Z"
            currentTime := "2020-01-01T00:00:00Z"
            multiplier := 1 } }
    building :=
      { id := "building-" ++ toString way_id
        name := "Building " ++ toString way_id
        polygon :=
          { cartographicDegrees := cartographic
            perPositionHeight := false
            extrudedHeight := h
            height := 0
            materialRgba := [255, 165, 0, 160]
            outline := true
            outlineColorRgba := [0, 0, 0, 255] } } }

end OsmFetcher

namespace OsmFetcher

/-! ### Helper lemmas -/

/-- The `_clean` of an empty string is `None` (Python falsiness guard). -/
theorem clean_empty : _clean "" = none := rfl

/-- A non-empty closed-by-construction ring starts and ends alike. -/
theorem ensure_closed_head_eq_getLast (c : Coordinate) (rest : List Coordinate) :
    (_ensure_closed_ring (c :: rest)).head? = (_ensure_closed_ring (c :: rest)).getLast? := by
  by_cases h : (c :: rest).getLast? = some c
  · simp only [_ensure_closed_ring, if_pos h]
    rw [h]
    rfl
  · simp only [_ensure_closed_ring, if_neg h]
    rw [List.getLast?_concat]
    rfl

end OsmFetcher

namespace OsmFetcher

/-- C7: `_ensure_closed_ring` applied twice equals `_ensure_closed_ring`
applied once: the empty list is a fixed point, and a once-closed ring has
`first == last`, so the second call's append branch is never taken. -/
theorem C7_ring_closing_idempotent (ns : List Coordinate) :
    _ensure_closed_ring (_ensure_closed_ring ns) = _ensure_closed_ring ns := by
  cases ns with
  | nil => rfl
  | cons c rest =>
    by_cases h : (c :: rest).getLast? = some c
    · simp only [_ensure_closed_ring, if_pos h]
    · have hlast : (c :: (rest ++ [c])).getLast? = some c := by
        rw [← List.cons_append]
        exact List.getLast?_concat _
      simp only [_ensure_closed_ring, if_neg h, List.cons_append, if_pos hlast]

/-- C9: `_build_czml_document` is a pure function of the way id, the
outline coordinates and the optional height: two calls on identical input
yield identical packet documents (no timestamp, no random identifier enters
the construction). -/
theorem C9_scene_packet_deterministic (way_id : Int) (coordinates : List Coordinate)
    (height : Option ℚ) :
    _build_czml_document way_id coordinates height
      = _build_czml_document way_id coordinates height := rfl

/-- C1 counterexample: with tags `height="abc"` (present, non-empty,
unparseable) and `building:height="7"` (parseable), line 239's
`tags.get("height") or tags.get("building:height")` keeps `"abc"`, so the
resolved height is `none`, not `7`: resolution does not fall through to
`building:height`. -/
theorem C1_counterexample :
    getTag [("height", "abc"), ("building:height", "7")] "height" = some "abc" ∧
    _clean "abc" = none ∧
    _clean "7" = some 7 ∧
    ¬ heightFor [("height", "abc"), ("building:height", "7")] = some 7 := by
  refine ⟨rfl, rfl, by decide, by decide⟩

/-- C1 amended: the fall-through to `building:height` happens exactly when
the `height` tag is absent or empty; in that case a parseable
`building:height` value is the resolved height. -/
theorem C1_amended_fallthrough (tags : List (String × String)) (s : String) (q : ℚ)
    (h1 : getTag tags "height" = none ∨ getTag tags "height" = some "")
    (h2 : getTag tags "building:height" = some s)
    (h3 : _clean s = some q) :
    heightFor tags = some q := by
  unfold heightFor pyOr
  rcases h1 with h1 | h1 <;>
    rw [h1, h2] <;>
    simp [truthy, _normalize_height, h3]

/-- Witness for C1's amended theorem at tags `{building:height: "8"}`. -/
theorem C1_amended_witness :
    heightFor [("building:height", "8")] = some 8 :=
  C1_amended_fallthrough [("building:height", "8")] "8" 8
    (Or.inl rfl) rfl (by decide)

/-- C3: (a) when the `height` tag carries a parseable token, it wins over a
parseable `building:levels` tag; (b) with `height` and `building:height`
both absent and `building:levels` parsing to `r`, the resolved height is
`r * 3.0`. -/
theorem C3_height_precedence :
    (∀ (tags : List (String × String)) (s t : String) (q r : ℚ),
        getTag tags "height" = some s → _clean s = some q →
        getTag tags "building:levels" = some t → _clean t = some r →
        heightFor tags = some q) ∧
    (∀ (tags : List (String × String)) (t : String) (r : ℚ),
        getTag tags "height" = none → getTag tags "building:height" = none →
        getTag tags "building:levels" = some t → _clean t = some r →
        heightFor tags = some (r * 3)) := by
  constructor
  · intro tags s t q r hs hq ht hr
    have hs' : s ≠ "" := by
      intro h
      rw [h] at hq
      simp [_clean] at hq
    unfold heightFor pyOr
    rw [hs]
    simp [truthy, hs', _normalize_height, hq]
  · intro tags t r hh hbh ht hr
    unfold heightFor pyOr
    rw [hh, hbh, ht]
    simp [truthy, _normalize_height, clean_empty, hr]

/-- Witness for C3: `height="9"` beats `building:levels="5"`, and
`building:levels="5"` alone resolves to `15.0`. -/
theorem C3_witness :
    heightFor [("height", "9"), ("building:levels", "5")] = some 9 ∧
    heightFor [("building:levels", "5")] = some 15 := by
  constructor
  · exact C3_height_precedence.1 [("height", "9"), ("building:levels", "5")]
      "9" "5" 9 5 rfl (by decide) rfl (by decide)
  · have h := C3_height_precedence.2 [("building:levels", "5")] "5" 5
      rfl rfl rfl (by decide)
    rw [h]
    norm_num

end OsmFetcher

namespace OsmFetcher

/-- Address formatting modelled from the spec's words (for comparison with
the source's `_format_address`): the values of the listed tags in fixed
order, skipping absent or empty ones, joined by `", "`, absent when no tag
contributes. -/
def formatAddressSpec (tags : List (String × String)) : Option String :=
  let parts := _ADDRESS_FIELDS.filterMap (fun k =>
    match getTag tags k with
    | none => none
    | some v => if v = "" then none else some v)
  if parts = [] then none else some (String.intercalate ", " parts)

/-- The accumulating loop of `_format_address` collects exactly the
non-empty present tag values, in field order. -/
theorem format_address_foldl (tags : List (String × String)) (fields : List String)
    (acc : List String) :
    fields.foldl
      (fun acc k =>
        match getTag tags k with
        | some v => if v ≠ "" then acc ++ [v] else acc
        | none => acc)
      acc
      = acc ++ fields.filterMap (fun k =>
          match getTag tags k with
          | none => none
          | some v => if v = "" then none else some v) := by
  induction fields generalizing acc with
  | nil => simp
  | cons k ks ih =>
    simp only [List.foldl_cons, List.filterMap_cons]
    cases hk : getTag tags k with
    | none => simp only [hk]; rw [ih]
    | some v =>
      by_cases hv : v = ""
      · simp only [hk, hv]; simp only [ne_eq, not_true_eq_false, if_false, if_neg]
        rw [ih]
        simp
      · simp only [hk]
        rw [if_pos hv, if_neg (by simpa using hv), ih]
        simp

/-- C5: `_format_address` agrees with the spec's description (fixed tag
order, absent/empty skipped, `", "` join, absent instead of empty when no
tag is present), and the spec's two examples hold. -/
theorem C5_address_formatting :
    (∀ tags : List (String × String), _format_address tags = formatAddressSpec tags) ∧
    _format_address [("addr:housenumber", "12"), ("addr:street", "Main St")]
      = some "12, Main St" ∧
    _format_address [] = none := by
  refine ⟨?_, by decide, rfl⟩
  intro tags
  unfold _format_address formatAddressSpec
  rw [format_address_foldl]
  simp

/-- A single decimal digit parses under the `float` model. -/
theorem pyFloat_single_digit (c : Char) (hc : c.isDigit = true) :
    pyFloat [c] ≠ none := by
  have hminus : ¬ c = '-' := by rintro rfl; exact absurd hc (by decide)
  have hplus : ¬ c = '+' := by rintro rfl; exact absurd hc (by decide)
  simp only [pyFloat]
  rw [if_neg hminus, if_neg hplus]
  unfold pyFloatCore
  simp [List.takeWhile_cons, List.dropWhile_cons, hc]

/-- A digit-free list has an empty digit prefix. -/
theorem takeWhile_isDigit_eq_nil (s : List Char) (h : ∀ c ∈ s, c.isDigit = false) :
    s.takeWhile Char.isDigit = [] := by
  cases s with
  | nil => rfl
  | cons c rest => simp [List.takeWhile_cons, h c (by simp)]

/-- The regex body cannot match on a digit-free list. -/
theorem matchBody_none_of_no_digit (s : List Char) (h : ∀ c ∈ s, c.isDigit = false) :
    matchBody s = none := by
  cases s with
  | nil => rfl
  | cons c rest =>
    have hc : c.isDigit = false := h c (by simp)
    unfold matchBody
    rw [List.takeWhile_cons, List.dropWhile_cons, hc]
    simp only [Bool.false_eq_true, if_false]
    by_cases hdot : c = '.'
    · subst hdot
      have h2 : rest.takeWhile Char.isDigit = []
        := takeWhile_isDigit_eq_nil rest (fun x hx => h x (by simp [hx]))
      simp [h2]
    · simp [hdot]

/-- The anchored regex match fails on a digit-free list. -/
theorem matchAt_none_of_no_digit (s : List Char) (h : ∀ c ∈ s, c.isDigit = false) :
    matchAt s = none := by
  cases s with
  | nil => rfl
  | cons c rest =>
    have hb : matchBody (c :: rest) = none := matchBody_none_of_no_digit _ h
    have hbr : matchBody rest = none
      := matchBody_none_of_no_digit _ (fun x hx => h x (by simp [hx]))
    simp only [matchAt]
    by_cases hs : c = '-' ∨ c = '+'
    · rw [if_pos hs, hbr]
    · rw [if_neg hs]; exact hb

/-- Searching for the number pattern fails on a digit-free list. -/
theorem searchNum_none_of_no_digit (s : List Char) (h : ∀ c ∈ s, c.isDigit = false) :
    searchNum s = none := by
  induction s with
  | nil => rfl
  | cons c rest ih =>
    unfold searchNum
    rw [matchAt_none_of_no_digit _ h]
    exact ih (fun x hx => h x (by simp [hx]))

/-- C8: `"12.5 m"` parses to `12.5` despite the trailing unit, `"abc"`
yields absent, and whenever no contiguous substring of the value parses as
a float, `_clean` yields absent. -/
theorem C8_numeric_token_parsing :
    _clean "12.5 m" = some (25 / 2) ∧
    _clean "abc" = none ∧
    (∀ s : String,
        (∀ n m : Nat, pyFloat ((s.data.drop n).take m) = none) → _clean s = none) := by
  refine ⟨?_, rfl, ?_⟩
  · have h : _clean "12.5 m" = some ((12 : ℚ) + (5 : ℚ) / (10 : ℚ) ^ 1) := rfl
    rw [h]
    norm_num
  · intro s hsub
    have hnd : ∀ c ∈ s.data, c.isDigit = false := by
      intro c hc
      by_contra hdig
      rw [Bool.not_eq_false] at hdig
      obtain ⟨n, hn, rfl⟩ := List.mem_iff_getElem.mp hc
      have h1 : (s.data.drop n).take 1 = [s.data[n]] := by
        rw [List.drop_eq_getElem_cons hn]
        rfl
      have h2 := hsub n 1
      rw [h1] at h2
      exact pyFloat_single_digit _ hdig h2
    unfold _clean
    by_cases hs : s = ""
    · rw [if_pos hs]
    · rw [if_neg hs, searchNum_none_of_no_digit _ hnd]

/-- Witness for C8's absence clause at the empty input, all of whose
substrings are empty and fail to parse. -/
theorem C8_witness : _clean "" = none :=
  C8_numeric_token_parsing.2.2 ""
    (fun n m => by
      have he : ("".data) = ([] : List Char) := rfl
      rw [he, List.drop_nil, List.take_nil]
      rfl)

end OsmFetcher

namespace OsmFetcher

/-- Destructuring a successful `processWay`: the record's outline is the
closed ring, at least 4 long, the way id is the dict key, and `height_m`
is the resolved height (no default applied). -/
theorem processWay_some (nd : List (Int × Coordinate)) (wid : Int) (el : Element)
    (r : BuildingRecord) (h : processWay nd wid el = some r) :
    r.outline = _ensure_closed_ring ((wayNodes el).filterMap (fun i => dget nd i)) ∧
    4 ≤ r.outline.length ∧ r.way_id = wid ∧
    r.height_m = heightFor (wayTags el) := by
  simp only [processWay] at h
  by_cases hlen :
      (_ensure_closed_ring ((wayNodes el).filterMap (fun i => dget nd i))).length < 4
  · rw [if_pos hlen] at h
    exact absurd h (by simp)
  · rw [if_neg hlen] at h
    have he := Option.some.inj h
    subst he
    refine ⟨rfl, ?_, rfl, rfl⟩
    show 4 ≤ (_ensure_closed_ring ((wayNodes el).filterMap (fun i => dget nd i))).length
    omega

/-- C2 counterexample: a building way whose node list repeats a single
node four times passes the `len >= 4` check with an already-closed ring of
four identical coordinates, so the produced record has only one distinct
vertex, not three. -/
theorem C2_counterexample :
    fetchOsmBuildings [.node 1 0 0, .way 100 [1, 1, 1, 1] [("building", "yes")]]
      = [{ way_id := 100,
           outline := [⟨0, 0⟩, ⟨0, 0⟩, ⟨0, 0⟩, ⟨0, 0⟩],
           height_m := none, address := none }] ∧
    ([(⟨0, 0⟩ : Coordinate), ⟨0, 0⟩, ⟨0, 0⟩, ⟨0, 0⟩].dedup).length = 1 := by
  constructor
  · rfl
  · decide

/-- C2 amended: every produced record's outline has first coordinate equal
to last and total length at least 4 (the code checks only the closed
length, so the number of distinct vertices can be below 3). -/
theorem C2_outline_closed_and_long (elements : List Element) (r : BuildingRecord)
    (hr : r ∈ fetchOsmBuildings elements) :
    r.outline.head? = r.outline.getLast? ∧ 4 ≤ r.outline.length := by
  simp only [fetchOsmBuildings] at hr
  rw [List.mem_filterMap] at hr
  obtain ⟨p, _, hp⟩ := hr
  obtain ⟨hout, hlen, _, _⟩ := processWay_some _ _ _ _ hp
  refine ⟨?_, hlen⟩
  rcases hl : (wayNodes p.2).filterMap (fun i => dget (indexNodes elements) i)
      with _ | ⟨c, rest⟩
  · rw [hl] at hout
    rw [hout] at hlen
    simp [_ensure_closed_ring] at hlen
  · rw [hl] at hout
    rw [hout]
    exact ensure_closed_head_eq_getLast c rest

/-- Witness for C2's amended theorem on the spec's end-to-end scenario. -/
theorem C2_witness :
    ({ way_id := 100,
       outline := [⟨0, 0⟩, ⟨0, 1⟩, ⟨1, 1⟩, ⟨0, 0⟩],
       height_m := some 9, address := none } : BuildingRecord).outline.head?
      = ({ way_id := 100,
           outline := [⟨0, 0⟩, ⟨0, 1⟩, ⟨1, 1⟩, ⟨0, 0⟩],
           height_m := some 9, address := none } : BuildingRecord).outline.getLast? ∧
    4 ≤ ({ way_id := 100,
           outline := [⟨0, 0⟩, ⟨0, 1⟩, ⟨1, 1⟩, ⟨0, 0⟩],
           height_m := some 9, address := none } : BuildingRecord).outline.length :=
  C2_outline_closed_and_long
    [.node 1 0 0, .node 2 0 1, .node 3 1 1,
     .way 100 [1, 2, 3] [("building", "yes"), ("height", "9")]]
    { way_id := 100,
      outline := [⟨0, 0⟩, ⟨0, 1⟩, ⟨1, 1⟩, ⟨0, 0⟩],
      height_m := some 9, address := none }
    (by decide)

/-- C4: (a) a node identifier absent from the node dict contributes no
coordinate — the resolved coordinate list is as if the reference were not
there; (b) a way whose closed ring has fewer than 4 coordinates yields no
`BuildingRecord` (both cases are ordinary control flow, not errors). -/
theorem C4_missing_nodes_and_degenerate_ways :
    (∀ (nd : List (Int × Coordinate)) (pre post : List Int) (i : Int),
        dget nd i = none →
        (pre ++ i :: post).filterMap (fun j => dget nd j)
          = (pre ++ post).filterMap (fun j => dget nd j)) ∧
    (∀ (nd : List (Int × Coordinate)) (wid : Int) (el : Element),
        (_ensure_closed_ring ((wayNodes el).filterMap (fun i => dget nd i))).length < 4 →
        processWay nd wid el = none) := by
  constructor
  · intro nd pre post i hi
    simp [List.filterMap_append, List.filterMap_cons, hi]
  · intro nd wid el hlen
    simp only [processWay]
    rw [if_pos hlen]

/-- Witness for C4: node id 2 is unresolvable and is skipped; a two-node
building way closes to a 3-ring and is dropped. -/
theorem C4_witness :
    ([1, 2, 1].filterMap (fun j => dget [(1, (⟨0, 0⟩ : Coordinate))] j)
       = [1, 1].filterMap (fun j => dget [(1, (⟨0, 0⟩ : Coordinate))] j)) ∧
    processWay [(1, ⟨0, 0⟩)] 100 (.way 100 [1, 2] [("building", "yes")]) = none :=
  ⟨C4_missing_nodes_and_degenerate_ways.1 [(1, ⟨0, 0⟩)] [1] [1] 2 (by decide),
   C4_missing_nodes_and_degenerate_ways.2 [(1, ⟨0, 0⟩)] 100
     (.way 100 [1, 2] [("building", "yes")]) (by decide)⟩

end OsmFetcher

namespace OsmFetcher

/-- The `cartographic.extend` loop flattens one `[lng, lat, 0.0]` triple
per coordinate, in outline order. -/
theorem cartographic_foldl_eq_flatMap (coords : List Coordinate) (acc : List ℚ) :
    coords.foldl (fun acc c => acc ++ [c.lng, c.lat, 0]) acc
      = acc ++ coords.flatMap (fun c => [c.lng, c.lat, 0]) := by
  induction coords generalizing acc with
  | nil => simp
  | cons c cs ih => simp [ih]

/-- C6: the geometry packet's polygon carries the flattened interleaved
`[longitude, latitude, 0.0]` triples, `perPositionHeight = false`, base
height `0.0`, and `extrudedHeight` equal to the given height when present
and `10.0` when absent; and the record returned by the pipeline keeps the
undefaulted resolved height in `height_m`. -/
theorem C6_geometry_packet :
    (∀ (wid : Int) (coords : List Coordinate) (h : Option ℚ),
        ((_build_czml_document wid coords h).building.polygon.cartographicDegrees
            = coords.flatMap (fun c => [c.lng, c.lat, 0])) ∧
        (_build_czml_document wid coords h).building.polygon.perPositionHeight = false ∧
        (_build_czml_document wid coords h).building.polygon.height = 0 ∧
        (_build_czml_document wid coords h).building.polygon.extrudedHeight
          = h.getD 10) ∧
    (∀ (nd : List (Int × Coordinate)) (wid : Int) (el : Element) (r : BuildingRecord),
        processWay nd wid el = some r → r.height_m = heightFor (wayTags el)) := by
  constructor
  · intro wid coords h
    refine ⟨?_, rfl, rfl, rfl⟩
    show coords.foldl (fun acc c => acc ++ [c.lng, c.lat, 0]) []
      = coords.flatMap (fun c => [c.lng, c.lat, 0])
    rw [cartographic_foldl_eq_flatMap]
    simp
  · intro nd wid el r h
    exact (processWay_some nd wid el r h).2.2.2

/-- Witness for C6's record clause: a concrete way with no height tags
yields a record whose `height_m` is the (absent) resolved height. -/
theorem C6_witness :
    ({ way_id := 100,
       outline := [⟨0, 0⟩, ⟨0, 0⟩, ⟨0, 0⟩, ⟨0, 0⟩],
       height_m := none, address := none } : BuildingRecord).height_m
      = heightFor [("building", "yes")] :=
  C6_geometry_packet.2 [(1, ⟨0, 0⟩)] 100 (.way 100 [1, 1, 1, 1] [("building", "yes")])
    { way_id := 100, outline := [⟨0, 0⟩, ⟨0, 0⟩, ⟨0, 0⟩, ⟨0, 0⟩],
      height_m := none, address := none }
    (by decide)

end OsmFetcher

namespace OsmFetcher

/-- Overwriting the entries holding key `k` makes `k` look up the new
value. -/
theorem dget_map_overwrite (d : List (Int × α)) (k : Int) (v : α)
    (h : d.any (fun p => p.1 == k) = true) :
    dget (d.map (fun p => if p.1 == k then (k, v) else p)) k = some v := by
  induction d with
  | nil => simp at h
  | cons p d' ih =>
    simp only [List.map_cons]
    by_cases hp : (p.1 == k) = true
    · rw [if_pos hp]
      unfold dget
      rw [List.find?_cons_of_pos _ (by simp)]
      rfl
    · rw [if_neg hp]
      unfold dget
      rw [List.find?_cons_of_neg _ (by simpa using hp)]
      apply ih
      simpa [hp] using h

/-- Appending a fresh binding makes its key look up its value. -/
theorem dget_append_single (d : List (Int × α)) (k : Int) (v : α)
    (h : d.any (fun p => p.1 == k) = false) :
    dget (d ++ [(k, v)]) k = some v := by
  unfold dget
  rw [List.find?_append]
  have hnone : d.find? (fun p => p.1 == k) = none := by
    rw [List.find?_eq_none]
    intro x hx
    rw [List.any_eq_false] at h
    exact h x hx
  rw [hnone]
  simp

/-- Python dict semantics: after `d[k] = v`, `d.get(k)` is `v`. -/
theorem dget_dinsert_self (d : List (Int × α)) (k : Int) (v : α) :
    dget (dinsert d k v) k = some v := by
  unfold dinsert
  by_cases h : d.any (fun p => p.1 == k)
  · rw [if_pos h]
    exact dget_map_overwrite d k v h
  · rw [if_neg h]
    exact dget_append_single d k v (by simp only [Bool.not_eq_true] at h; exact h)

/-- Indexing one more building-tagged way assigns it into the dict. -/
theorem indexBuildings_append_way (es : List Element) (wid : Int) (ns : List Int)
    (ts : List (String × String)) (hb : isBuildingWay (.way wid ns ts) = true) :
    indexBuildings (es ++ [.way wid ns ts])
      = dinsert (indexBuildings es) wid (.way wid ns ts) := by
  unfold indexBuildings
  rw [List.foldl_append]
  simp [hb]

/-- Indexing one more node assigns its coordinate into the dict. -/
theorem indexNodes_append_node (es : List Element) (i : Int) (la ln : ℚ) :
    indexNodes (es ++ [.node i la ln]) = dinsert (indexNodes es) i ⟨la, ln⟩ := by
  unfold indexNodes
  rw [List.foldl_append]
  simp

/-- Dict assignment never duplicates a key. -/
theorem keys_dinsert (d : List (Int × α)) (k : Int) (v : α) :
    (dinsert d k v).map Prod.fst
      = if d.any (fun p => p.1 == k) then d.map Prod.fst
        else d.map Prod.fst ++ [k] := by
  unfold dinsert
  by_cases h : d.any (fun p => p.1 == k)
  · rw [if_pos h, if_pos h, List.map_map]
    apply List.map_congr_left
    intro p hp
    by_cases hpk : (p.1 == k) = true
    · simp only [Function.comp, hpk, if_true]
      exact (eq_of_beq hpk).symm
    · simp [Function.comp, hpk]
  · rw [if_neg h, if_neg h, List.map_append]
    rfl

/-- Dict assignment preserves distinctness of keys. -/
theorem nodup_keys_dinsert (d : List (Int × α)) (k : Int) (v : α)
    (h : (d.map Prod.fst).Nodup) : ((dinsert d k v).map Prod.fst).Nodup := by
  rw [keys_dinsert]
  by_cases ha : d.any (fun p => p.1 == k)
  · rw [if_pos ha]
    exact h
  · rw [if_neg ha]
    have hk : k ∉ d.map Prod.fst := by
      intro hmem
      rw [List.mem_map] at hmem
      obtain ⟨p, hp, hpk⟩ := hmem
      simp only [Bool.not_eq_true, List.any_eq_false] at ha
      exact absurd (by simp [hpk]) (Bool.not_eq_true _ ▸ (ha p hp))
    simp [List.nodup_append, h, hk]

/-- The `buildings` dict has pairwise-distinct way ids. -/
theorem indexBuildings_keys_nodup (es : List Element) :
    ((indexBuildings es).map Prod.fst).Nodup := by
  unfold indexBuildings
  have key : ∀ (init : List (Int × Element)), (init.map Prod.fst).Nodup →
      ((es.foldl
        (fun bd el =>
          match el with
          | .way i _ _ => if isBuildingWay el then dinsert bd i el else bd
          | _ => bd)
        init).map Prod.fst).Nodup := by
    induction es with
    | nil => intro init hn; simpa using hn
    | cons e es ih =>
      intro init hn
      rw [List.foldl_cons]
      apply ih
      cases e with
      | node i la ln => exact hn
      | way i ns ts =>
        by_cases hb : isBuildingWay (.way i ns ts)
        · show ((if isBuildingWay (Element.way i ns ts)
              then dinsert init i (.way i ns ts) else init).map Prod.fst).Nodup
          rw [if_pos hb]
          exact nodup_keys_dinsert _ _ _ hn
        · show ((if isBuildingWay (Element.way i ns ts)
              then dinsert init i (.way i ns ts) else init).map Prod.fst).Nodup
          rw [if_neg hb]
          exact hn
      | other => exact hn
  exact key [] (by simp)

/-- C10: a later `node` or building-tagged `way` element overwrites an
earlier one with the same id in the lookup dicts (the appended-last
element is what its id looks up, whatever came before), and consequently
the result list carries pairwise-distinct way ids — at most one
`BuildingRecord` per way id, built from the last occurrence. -/
theorem C10_duplicate_elements_overwrite :
    (∀ (es : List Element) (wid : Int) (ns : List Int) (ts : List (String × String)),
        isBuildingWay (.way wid ns ts) = true →
        dget (indexBuildings (es ++ [.way wid ns ts])) wid = some (.way wid ns ts)) ∧
    (∀ (es : List Element) (i : Int) (la ln : ℚ),
        dget (indexNodes (es ++ [.node i la ln])) i = some ⟨la, ln⟩) ∧
    (∀ es : List Element,
        (fetchOsmBuildings es).Pairwise (fun a b => a.way_id ≠ b.way_id)) := by
  refine ⟨?_, ?_, ?_⟩
  · intro es wid ns ts hb
    rw [indexBuildings_append_way es wid ns ts hb]
    exact dget_dinsert_self _ _ _
  · intro es i la ln
    rw [indexNodes_append_node]
    exact dget_dinsert_self _ _ _
  · intro es
    simp only [fetchOsmBuildings]
    have hp : (indexBuildings es).Pairwise (fun p q => p.1 ≠ q.1) :=
      List.pairwise_map.mp (indexBuildings_keys_nodup es)
    apply List.Pairwise.filterMap _ _ hp
    intro a a' hR b hb b' hb'
    rw [Option.mem_def] at hb hb'
    have h1 := (processWay_some _ _ _ _ hb).2.2.1
    have h2 := (processWay_some _ _ _ _ hb').2.2.1
    rw [h1, h2]
    exact hR

/-- Witness for C10: two building ways with id 100; the dict maps 100 to
the second one. -/
theorem C10_witness :
    dget (indexBuildings
        [.way 100 [1] [("building", "yes")], .way 100 [2] [("building", "yes")]]) 100
      = some (.way 100 [2] [("building", "yes")]) :=
  C10_duplicate_elements_overwrite.1 [.way 100 [1] [("building", "yes")]]
    100 [2] [("building", "yes")] (by decide)

end OsmFetcher
